import Mathlib

/-!
Shallow embedding of the heuristic detection-and-decision engine of the
better-bookmarks-scraper repository: the video-thumbnail candidate pipeline
(`src/services/VideoThumbnailDetector.ts`), the decision orchestrator
(`src/services/BrowserManager.ts`), and the banner dismissal loop
(`BannerHandler`).  Page-dependent effects (DOM queries, image measurement,
network fetches, wall-clock time) are passed in as explicit oracles;
JavaScript numbers are modelled as ℚ (confidences, aspect ratios) and ℕ
(pixel dimensions), and JavaScript truthiness checks on numbers are modelled
explicitly (`0` is falsy).
-/

namespace BBS

/-- JS `String.prototype.includes` (case-sensitive substring test). -/
def strContains (s pat : String) : Bool :=
  decide (pat.toList <:+: s.toList)

/-- JS `url.toLowerCase().includes(pat)` for an already-lowercase `pat`. -/
def strContainsLower (s pat : String) : Bool :=
  decide (pat.toList <:+: s.toList.map Char.toLower)

/-- JS `Math.abs`, written so that it evaluates by kernel reduction. -/
def ratAbs (x : ℚ) : ℚ := if x < 0 then -x else x

/-- JS truthiness of an optional number field holding a `ℕ`
(`undefined` and `0` are falsy). -/
def truthyNat : Option ℕ → Bool
  | some n => n != 0
  | none => false

/-- JS truthiness of an optional number field holding a `ℚ`. -/
def truthyRat : Option ℚ → Bool
  | some q => q != 0
  | none => false

/-- `ThumbnailCandidate` from `VideoThumbnailDetector.ts` (lines 3-12).
The `aspectRatio` field of the source is called `aspect` here. -/
structure ThumbnailCandidate where
  url : String
  source : String
  confidence : ℚ
  width : Option ℕ
  height : Option ℕ
  aspect : Option ℚ
  method : String
deriving DecidableEq, Repr

/-- `VideoDetectionResult` from `VideoThumbnailDetector.ts` (lines 14-19),
without the diagnostic log. -/
structure VideoDetectionResult where
  hasVideo : Bool
  thumbnail : Option ThumbnailCandidate
  candidates : List ThumbnailCandidate
deriving DecidableEq, Repr

def MIN_THUMBNAIL_WIDTH : ℕ := 200

def MIN_THUMBNAIL_HEIGHT : ℕ := 150

/-- `PREFERRED_ASPECT_RATIOS = [16/9, 4/3, 3/2, 1.85, 2.35]` (line 24). -/
def PREFERRED_ASPECT_RATIOS : List ℚ := [16/9, 4/3, 3/2, 1.85, 2.35]

def MAX_ASPECT_RATIO_DEVIATION : ℚ := 0.3

/-- URL substring denylist of `isValidThumbnail` (lines 453-456). -/
def rejectPatternList : List String :=
  ["icon", "favicon", "logo", "sprite", "avatar", "profile",
   "button", "arrow", "close", "play-button", "controls"]

/-- `isValidThumbnail` (lines 446-471).  Note that the dimension guards use
JS truthiness: `if (candidate.width && candidate.width < 200)`, so a width
or height of `0` skips the corresponding minimum-size check, and an
`aspectRatio` of `0` skips the aspect-ratio check. -/
def isValidThumbnail (c : ThumbnailCandidate) : Bool :=
  if truthyNat c.width && decide (c.width.getD 0 < MIN_THUMBNAIL_WIDTH) then false
  else if truthyNat c.height && decide (c.height.getD 0 < MIN_THUMBNAIL_HEIGHT) then false
  else if rejectPatternList.any (fun pat => strContainsLower c.url pat) then false
  else if truthyRat c.aspect then
    let r := c.aspect.getD 0
    let isReasonable := PREFERRED_ASPECT_RATIOS.any
      (fun q => decide (ratAbs (r - q) ≤ MAX_ASPECT_RATIO_DEVIATION))
    if !isReasonable && decide (r < 0.5) then false else true
  else true

/-- `calculateFinalConfidence` (lines 473-497), mirroring the sequential
bonus additions and the final `Math.min(confidence, 1.0)`. -/
def calculateFinalConfidence (c : ThumbnailCandidate) : ℚ :=
  let c1 :=
    if truthyNat c.width && truthyNat c.height then
      let area := c.width.getD 0 * c.height.getD 0
      if 500000 < area then c.confidence + 0.1
      else if 200000 < area then c.confidence + 0.05
      else c.confidence
    else c.confidence
  let c2 :=
    if truthyRat c.aspect then
      let r := c.aspect.getD 0
      if PREFERRED_ASPECT_RATIOS.any (fun q => decide (ratAbs (r - q) ≤ 0.1)) then c1 + 0.1
      else c1
    else c1
  let c3 :=
    if strContains c.source "video" || strContains c.source "poster" then c2 + 0.1
    else c2
  min c3 1

/-- Dimension measurement step of `validateAndScoreCandidates`
(lines 407-423): when width or height is missing (or zero), the image is
loaded off-DOM; the `measure` oracle returns the measured natural
dimensions, `(0, 0)` on error or after the 5s timeout. -/
def measureDims (measure : String → ℕ × ℕ) (c : ThumbnailCandidate) :
    ThumbnailCandidate :=
  if truthyNat c.width && truthyNat c.height then c
  else { c with width := some (measure c.url).1, height := some (measure c.url).2 }

/-- Aspect-ratio fill-in of `validateAndScoreCandidates` (lines 425-428):
`if (candidate.width && candidate.height) aspectRatio = width / height`. -/
def fillAspect (c : ThumbnailCandidate) : ThumbnailCandidate :=
  if truthyNat c.width && truthyNat c.height then
    { c with aspect := some ((c.width.getD 0 : ℚ) / (c.height.getD 0 : ℚ)) }
  else c

/-- `validateAndScoreCandidates` (lines 388-444).  `resolve` is the page's
relative-to-absolute URL resolution oracle (returning the input URL on
failure, as the in-page `try/catch` does). -/
def validateAndScoreCandidates (resolve : String → String)
    (measure : String → ℕ × ℕ) (candidates : List ThumbnailCandidate) :
    List ThumbnailCandidate :=
  candidates.filterMap (fun candidate =>
    let c1 := { candidate with url := resolve candidate.url }
    let c2 := fillAspect (measureDims measure c1)
    if isValidThumbnail c2 then
      some { c2 with confidence := calculateFinalConfidence c2 }
    else none)

/-- Stable insertion step for the descending-confidence sort: an element is
placed before the first element of not-greater confidence, so elements of
equal confidence keep their encounter order. -/
def insertByConfidenceDesc (c : ThumbnailCandidate) :
    List ThumbnailCandidate → List ThumbnailCandidate
  | [] => [c]
  | d :: ds =>
    if d.confidence ≤ c.confidence then c :: d :: ds
    else d :: insertByConfidenceDesc c ds

/-- `candidates.sort((a, b) => b.confidence - a.confidence)` (line 503).
`Array.prototype.sort` is stable (ES2019), and a stable sort's output is
uniquely determined by the comparator, so stable insertion sort is an exact
model of the in-place sort's result. -/
def sortByConfidenceDesc : List ThumbnailCandidate → List ThumbnailCandidate
  | [] => []
  | c :: cs => insertByConfidenceDesc c (sortByConfidenceDesc cs)

/-- `selectBestCandidate` (lines 499-506): sort descending (mutating the
array in place), return the first element, or `undefined` when empty. -/
def selectBestCandidate (l : List ThumbnailCandidate) : Option ThumbnailCandidate :=
  (sortByConfidenceDesc l).head?

/-- The page signals read by `detectVideoPresence` (lines 508-525): native
video elements plus the eight `videoIndicators` selectors. -/
structure PageVideoSignals where
  hasVideoElement : Bool
  classVideo : Bool
  idVideo : Bool
  classPlayer : Bool
  idPlayer : Bool
  iframeYoutube : Bool
  iframeVimeo : Bool
  iframeDailymotion : Bool
  iframeTwitch : Bool
deriving DecidableEq, Repr

/-- `detectVideoPresence` (lines 508-525). -/
def detectVideoPresence (s : PageVideoSignals) : Bool :=
  s.hasVideoElement ||
    (s.classVideo || s.idVideo || s.classPlayer || s.idPlayer ||
     s.iframeYoutube || s.iframeVimeo || s.iframeDailymotion || s.iframeTwitch)

/-- The claim's notion of "video presence otherwise detected": a native
video element exists or a known embed-host iframe exists. -/
def videoElementOrEmbedIframe (s : PageVideoSignals) : Bool :=
  s.hasVideoElement ||
    (s.iframeYoutube || s.iframeVimeo || s.iframeDailymotion || s.iframeTwitch)

/-- Tail of `detectVideoThumbnail` (lines 70-93): validate and score the
raw candidates gathered by the six extractors, select the best (sorting the
validated array in place), and compute `hasVideo` from the raw candidate
count and `detectVideoPresence`. -/
def detectVideoThumbnail (resolve : String → String)
    (measure : String → ℕ × ℕ) (signals : PageVideoSignals)
    (rawCandidates : List ThumbnailCandidate) : VideoDetectionResult :=
  let validCandidates := validateAndScoreCandidates resolve measure rawCandidates
  let sorted := sortByConfidenceDesc validCandidates
  { hasVideo := !rawCandidates.isEmpty || detectVideoPresence signals,
    thumbnail := sorted.head?,
    candidates := sorted }

/-- Spec-side selector for C6, following the spec's words: the first
candidate, in encounter order, whose confidence is greatest. -/
def firstMaxCandidate (l : List ThumbnailCandidate) : Option ThumbnailCandidate :=
  l.find? (fun c => l.all (fun d => decide (d.confidence ≤ c.confidence)))

/-- `shouldReturnUrlDirectly` from `takeIntelligentScreenshot`
(`BrowserManager.ts` lines 196-203). -/
def shouldReturnUrlDirectly (t : ThumbnailCandidate) : Bool :=
  t.source == "oEmbed" ||
  t.source == "schema.org VideoObject" ||
  strContains t.url "thumbnail_url" ||
  strContains t.url "maxresdefault" ||
  strContains t.url "vimeocdn.com" ||
  strContains t.url "dailymotion.com" ||
  decide ((0.8 : ℚ) ≤ t.confidence)

/-- The condition of claim C4 as the spec states it: source is oEmbed or
structured-data VideoObject, confidence at least 0.8, or the URL matches a
known CDN thumbnail pattern for YouTube, Vimeo, or Dailymotion. -/
def claimDirectUrlCondition (t : ThumbnailCandidate) : Bool :=
  t.source == "oEmbed" ||
  t.source == "schema.org VideoObject" ||
  decide ((0.8 : ℚ) ≤ t.confidence) ||
  strContains t.url "maxresdefault" ||
  strContains t.url "vimeocdn.com" ||
  strContains t.url "dailymotion.com"

/-- `ScreenshotResult` from `BrowserManager.ts` (lines 20-25): either image
bytes or a thumbnail URL.  Image bytes are abstracted to a `ℕ` token. -/
structure ScreenshotResult where
  image : Option ℕ
  thumbnailUrl : Option String
  isVideoThumbnail : Bool
deriving DecidableEq, Repr

deriving instance DecidableEq for Except

/-- The page-dependent outcomes of one `takeIntelligentScreenshot`
invocation.  Each fallible operation of the source is an oracle:
`navigationOk` covers browser/page setup and `page.goto`; `bannerFailed`
is whether banner handling threw (absorbed by its local `try/catch`,
lines 156-174, so it is never consulted); `detection` is the outcome of
`VideoThumbnailDetector.detectVideoThumbnail`; `fetchResult` the in-page
`fetch` of the selected thumbnail; `cropResult` the outcome of
`detectVideoRegionAndCrop` (which returns `null` on any internal error);
`regularResult` the outcome of `takeRegularScreenshot`. -/
structure OrchEnv where
  navigationOk : Bool
  bannerFailed : Bool
  detection : Except Unit VideoDetectionResult
  fetchResult : Except Unit ℕ
  cropResult : Option ℕ
  regularResult : Except Unit ℕ
deriving DecidableEq, Repr

/-- The observable outcome of one orchestrator invocation: the returned
`ScreenshotResult` (or a propagated error), plus whether a thumbnail fetch
and a region crop were attempted. -/
structure OrchOutcome where
  result : Except Unit ScreenshotResult
  fetchAttempted : Bool
  cropAttempted : Bool
deriving DecidableEq, Repr

/-- Fallback to `takeRegularScreenshot` (lines 242, 256, 261, 267, 272);
a failure of the plain capture propagates to the caller. -/
def regularOutcome (env : OrchEnv) (fetchAttempted cropAttempted : Bool) :
    OrchOutcome :=
  { result := env.regularResult.map (fun b =>
      { image := some b, thumbnailUrl := none, isVideoThumbnail := false }),
    fetchAttempted := fetchAttempted,
    cropAttempted := cropAttempted }

/-- `takeIntelligentScreenshot` (`BrowserManager.ts` lines 102-310). -/
def takeIntelligentScreenshot (detectVideoThumbnails : Bool) (env : OrchEnv) :
    OrchOutcome :=
  if !env.navigationOk then
    { result := .error (), fetchAttempted := false, cropAttempted := false }
  else if detectVideoThumbnails then
    match env.detection with
    | .error _ => regularOutcome env false false
    | .ok d =>
      match d.thumbnail with
      | some t =>
        if shouldReturnUrlDirectly t then
          { result := .ok { image := none, thumbnailUrl := some t.url,
                            isVideoThumbnail := true },
            fetchAttempted := false, cropAttempted := false }
        else
          match env.fetchResult with
          | .ok b =>
            { result := .ok { image := some b, thumbnailUrl := none,
                              isVideoThumbnail := true },
              fetchAttempted := true, cropAttempted := false }
          | .error _ =>
            match env.cropResult with
            | some b =>
              { result := .ok { image := some b, thumbnailUrl := none,
                                isVideoThumbnail := true },
                fetchAttempted := true, cropAttempted := true }
            | none => regularOutcome env true true
      | none =>
        if d.hasVideo then
          match env.cropResult with
          | some b =>
            { result := .ok { image := some b, thumbnailUrl := none,
                              isVideoThumbnail := true },
              fetchAttempted := false, cropAttempted := true }
          | none => regularOutcome env false true
        else regularOutcome env false false
  else regularOutcome env false false

inductive BannerAction where
  | click
  | remove
deriving DecidableEq, Repr

/-- `BannerPattern` from `BannerHandler` (lines 91-96). -/
structure BannerPattern where
  name : String
  selectors : List String
  action : BannerAction
  waitAfter : Option ℕ
deriving DecidableEq, Repr

/-- `BannerHandler.COMMON_BANNER_PATTERNS` (lines 99-309), transcribed
verbatim (apostrophes written as the escape `\x27`). -/
def COMMON_BANNER_PATTERNS : List BannerPattern := [
  { name := "Adult Site Age Verification",
    selectors := [
      "button:contains(\"I am 18 or older - Enter\")",
      "a:contains(\"I am 18 or older - Enter\")",
      "button:contains(\"I am 18 or older\")",
      "a:contains(\"I am 18 or older\")",
      "button:contains(\"Enter Site\")",
      "a:contains(\"Enter Site\")",
      "button:contains(\"Enter\")",
      "a:contains(\"Enter\")",
      ".agegate-enter",
      ".age-verification-enter",
      "[class*=\"agegate\"] button",
      "[class*=\"agegate\"] a",
      "[class*=\"age-verification\"] button",
      "[class*=\"age-verification\"] a",
      "[href*=\"enter\"]",
      "[onclick*=\"enter\"]",
      "[data-action*=\"enter\"]"],
    action := .click,
    waitAfter := some 3000 },
  { name := "Cookie Accept All",
    selectors := [
      "button[id*=\"accept\"]",
      "button[class*=\"accept\"]",
      "button:contains(\"Accept all\")",
      "button:contains(\"Alle akzeptieren\")",
      "button:contains(\"Alle Cookies akzeptieren\")",
      "button:contains(\"Cookies verwenden\")",
      "button:contains(\"Accepter tout\")",
      "button:contains(\"Aceptar todo\")",
      "button:contains(\"Accetta tutto\")",
      "[data-testid*=\"accept\"]",
      "[aria-label*=\"accept\"]",
      ".cookie-accept",
      "#cookie-accept",
      ".accept-cookies",
      "#accept-cookies",
      ".consent-accept",
      "#consent-accept"],
    action := .click,
    waitAfter := some 1000 },
  { name := "German Cookie Accept",
    selectors := [
      "button:contains(\"Alle Cookies akzeptieren\")",
      "button:contains(\"Cookies verwenden\")",
      "button:contains(\"Cookies akzeptieren\")",
      "button:contains(\"Alle akzeptieren\")",
      "button:contains(\"Einverstanden\")",
      "button:contains(\"Zustimmen\")",
      "button:contains(\"Cookies zulassen\")",
      "button:contains(\"Alle zulassen\")",
      "[data-action*=\"accept\"]:contains(\"Cookies\")",
      "[onclick*=\"accept\"]:contains(\"Cookies\")",
      ".cookie-button:contains(\"akzeptieren\")",
      ".consent-button:contains(\"akzeptieren\")"],
    action := .click,
    waitAfter := some 1000 },
  { name := "Cookie OK/Agree",
    selectors := [
      "button:contains(\"OK\")",
      "button:contains(\"Agree\")",
      "button:contains(\"I agree\")",
      "button:contains(\"Zustimmen\")",
      "button:contains(\"Einverstanden\")",
      "button:contains(\"D\x27accord\")",
      "button:contains(\"De acuerdo\")",
      "button:contains(\"Sono d\x27accordo\")",
      ".cookie-ok",
      "#cookie-ok",
      ".agree-button",
      "#agree-button"],
    action := .click,
    waitAfter := some 1000 },
  { name := "Age Verification - 18+",
    selectors := [
      "button:contains(\"I am 18 or older\")",
      "button:contains(\"I am 18 or older - Enter\")",
      "button:contains(\"Enter\")",
      "button:contains(\"Yes, I am 18+\")",
      "button:contains(\"I am over 18\")",
      "button:contains(\"Ich bin 18 oder √§lter\")",
      "button:contains(\"J\x27ai 18 ans ou plus\")",
      "button:contains(\"Tengo 18 a√±os o m√°s\")",
      "button:contains(\"Ho 18 anni o pi√π\")",
      "a:contains(\"I am 18 or older\")",
      "a:contains(\"I am 18 or older - Enter\")",
      "a:contains(\"Enter\")",
      "[href*=\"enter\"]:contains(\"18\")",
      "[href*=\"enter\"]:contains(\"older\")",
      "[data-testid*=\"age-verify\"]",
      "[data-testid*=\"enter-site\"]",
      ".age-verify-enter",
      "#age-verify-enter",
      ".enter-site",
      "#enter-site",
      "*:contains(\"I am 18 or older - Enter\")",
      "*:contains(\"I am 18 or older\")",
      ".agegate button",
      ".age-verification button",
      "[class*=\"age\"] button:contains(\"Enter\")",
      "[class*=\"age\"] a:contains(\"Enter\")"],
    action := .click,
    waitAfter := some 2000 },
  { name := "YouTube Cookie Accept",
    selectors := [
      "button[aria-label*=\"Accept the use of cookies\"]",
      "button:contains(\"Alle akzeptieren\")",
      "button:contains(\"Accept all\")",
      "ytd-button-renderer button[aria-label*=\"Accept\"]",
      "[data-testid=\"accept-button\"]",
      "ytd-button-renderer:contains(\"Alle akzeptieren\") button",
      "ytd-button-renderer:contains(\"Accept all\") button",
      "c3-material-button:contains(\"Alle akzeptieren\")",
      "c3-material-button:contains(\"Accept all\")",
      "[role=\"button\"]:contains(\"Alle akzeptieren\")",
      "[role=\"button\"]:contains(\"Accept all\")",
      "button[jsname]:contains(\"Alle akzeptieren\")",
      "button[jsname]:contains(\"Accept all\")"],
    action := .click,
    waitAfter := some 1500 },
  { name := "Modal Close",
    selectors := [
      "button[aria-label=\"Close\"]",
      "button[aria-label=\"Schlie√üen\"]",
      "button[aria-label=\"Fermer\"]",
      "button[aria-label=\"Cerrar\"]",
      "button[aria-label=\"Chiudi\"]",
      ".modal-close",
      ".close-modal",
      ".popup-close",
      ".overlay-close",
      "[data-dismiss=\"modal\"]"],
    action := .click,
    waitAfter := some 500 },
  { name := "GDPR Accept",
    selectors := [
      "button:contains(\"Accept and continue\")",
      "button:contains(\"Akzeptieren und fortfahren\")",
      "button:contains(\"Accepter et continuer\")",
      "button:contains(\"Aceptar y continuar\")",
      "button:contains(\"Accetta e continua\")",
      ".gdpr-accept",
      "#gdpr-accept",
      ".privacy-accept",
      "#privacy-accept"],
    action := .click,
    waitAfter := some 1000 },
  { name := "Newsletter Close",
    selectors := [
      "button:contains(\"No thanks\")",
      "button:contains(\"Maybe later\")",
      "button:contains(\"Skip\")",
      "button:contains(\"Nein danke\")",
      "button:contains(\"Sp√§ter\")",
      "button:contains(\"Non merci\")",
      "button:contains(\"Plus tard\")",
      "button:contains(\"No gracias\")",
      "button:contains(\"M√°s tarde\")",
      "button:contains(\"No grazie\")",
      "button:contains(\"Pi√π tardi\")",
      ".newsletter-close",
      ".subscription-close",
      ".popup-dismiss"],
    action := .click,
    waitAfter := some 500 }]

/-- Spec taxonomy: age-verification patterns of the catalog. -/
def isAgeVerificationPattern (p : BannerPattern) : Bool :=
  p.name == "Adult Site Age Verification" || p.name == "Age Verification - 18+"

/-- Spec taxonomy: cookie-consent patterns of the catalog. -/
def isCookieConsentPattern (p : BannerPattern) : Bool :=
  p.name == "Cookie Accept All" || p.name == "German Cookie Accept" ||
  p.name == "Cookie OK/Agree" || p.name == "YouTube Cookie Accept"

/-- Spec taxonomy: generic modal, GDPR, and newsletter patterns. -/
def isGenericModalPattern (p : BannerPattern) : Bool :=
  p.name == "Modal Close" || p.name == "GDPR Accept" || p.name == "Newsletter Close"

/-- Observable events of one `handleBanners` run: pattern `idx` of pass
`pass` was probed (`tried`), successfully applied (`applied`), or the loop
waited `ms` milliseconds after a successful application (`waited`). -/
inductive BannerEvent where
  | tried (pass idx : ℕ)
  | applied (pass idx : ℕ)
  | waited (pass ms : ℕ)
deriving DecidableEq, Repr

def passOf : BannerEvent → ℕ
  | .tried p _ => p
  | .applied p _ => p
  | .waited p _ => p

def isAppliedOfPass (n : ℕ) : BannerEvent → Bool
  | .applied p _ => p == n
  | _ => false

/-- The environment of one `handleBanners` run.  `timeUpAtLoopHead a` is
the `Date.now() < maxTime` check of the `while` condition after `a`
completed passes; `timeUpAtPattern p j` is the `Date.now() >= maxTime`
check before pattern `j` of pass `p` (line 331); `applies p j` is whether
`handleBannerPattern` returns true for pattern `j` in pass `p` (exceptions
are treated as false by the `try/catch` at lines 347-350). -/
structure BannerEnv where
  timeUpAtLoopHead : ℕ → Bool
  timeUpAtPattern : ℕ → ℕ → Bool
  applies : ℕ → ℕ → Bool

inductive PassOutcome where
  | handled (idx : ℕ)
  | exhausted
  | timedOut
deriving DecidableEq, Repr

structure PassTrace where
  outcome : PassOutcome
  events : List BannerEvent
deriving DecidableEq, Repr

/-- The `if (pattern.waitAfter) await setTimeout(pattern.waitAfter)` step
(lines 341-343); JS truthiness makes a zero wait a no-op. -/
def waitEvents (p : ℕ) (pat : BannerPattern) : List BannerEvent :=
  match pat.waitAfter with
  | some w => if w = 0 then [] else [.waited p w]
  | none => []

/-- The inner `for (const pattern of this.COMMON_BANNER_PATTERNS)` loop of
one pass (lines 330-351): check the deadline, try the pattern, and stop
the pass at the first success (`break` at line 345). -/
def scanCatalog (env : BannerEnv) (p : ℕ) : ℕ → List BannerPattern → PassTrace
  | _, [] => { outcome := .exhausted, events := [] }
  | j, pat :: rest =>
    if env.timeUpAtPattern p j then { outcome := .timedOut, events := [] }
    else if env.applies p j then
      { outcome := .handled j,
        events := [.tried p j, .applied p j] ++ waitEvents p pat }
    else
      let t := scanCatalog env p (j + 1) rest
      { outcome := t.outcome, events := .tried p j :: t.events }

inductive ExitReason where
  | noneFound
  | timeUp
  | capReached
deriving DecidableEq, Repr

/-- Result of a `handleBanners` run: the number of passes entered
(`attempts`), the number of banners dismissed, why the loop stopped, and
the event trace. -/
structure LoopState where
  passes : ℕ
  bannersHandled : ℕ
  reason : ExitReason
  events : List BannerEvent
deriving DecidableEq, Repr

def MAX_BANNER_ATTEMPTS : ℕ := 5

/-- The `while (Date.now() < maxTime && attempts < maxAttempts)` loop of
`handleBanners` (lines 326-360), with `fuel = maxAttempts - attempts`.
The deadline is checked first, as in the source; a pass with no successful
pattern ends the loop (`if (!foundBanner) break`, lines 354-356) — when the
pass was cut short by the mid-pass deadline check this exit is recorded as
`timeUp`, otherwise as `noneFound`. -/
def bannerLoopGo (env : BannerEnv) :
    ℕ → ℕ → ℕ → List BannerEvent → LoopState
  | 0, attempts, handled, evs =>
    if env.timeUpAtLoopHead attempts then
      { passes := attempts, bannersHandled := handled, reason := .timeUp,
        events := evs }
    else
      { passes := attempts, bannersHandled := handled, reason := .capReached,
        events := evs }
  | fuel + 1, attempts, handled, evs =>
    if env.timeUpAtLoopHead attempts then
      { passes := attempts, bannersHandled := handled, reason := .timeUp,
        events := evs }
    else
      let t := scanCatalog env (attempts + 1) 0 COMMON_BANNER_PATTERNS
      match t.outcome with
      | .handled _ =>
        bannerLoopGo env fuel (attempts + 1) (handled + 1) (evs ++ t.events)
      | .exhausted =>
        { passes := attempts + 1, bannersHandled := handled,
          reason := .noneFound, events := evs ++ t.events }
      | .timedOut =>
        { passes := attempts + 1, bannersHandled := handled,
          reason := .timeUp, events := evs ++ t.events }

/-- `BannerHandler.handleBanners` (lines 311-376). -/
def handleBanners (env : BannerEnv) : LoopState :=
  bannerLoopGo env MAX_BANNER_ATTEMPTS 0 0 []

/-- Spec-side area bonus of §4.7. -/
def areaBonus (c : ThumbnailCandidate) : ℚ :=
  match c.width, c.height with
  | some w, some h =>
    if 500000 < w * h then 0.1 else if 200000 < w * h then 0.05 else 0
  | _, _ => 0

/-- Spec-side aspect bonus of §4.7. -/
def aspectBonus (c : ThumbnailCandidate) : ℚ :=
  match c.aspect with
  | some r =>
    if PREFERRED_ASPECT_RATIOS.any (fun q => decide (ratAbs (r - q) ≤ 0.1)) then 0.1 else 0
  | none => 0

/-- Spec-side source bonus of §4.7. -/
def sourceBonus (c : ThumbnailCandidate) : ℚ :=
  if strContains c.source "video" || strContains c.source "poster" then 0.1 else 0

/-- The candidate of end-to-end scenario A of §8. -/
def scenarioACandidate : ThumbnailCandidate :=
  { url := "https://x/a.jpg", source := "og:image", confidence := 0.8,
    width := some 1280, height := some 720, aspect := some (mkRat 16 9),
    method := "metadata" }

/-- A DOM-traversal candidate whose dimensions are unknown before
validation; off-DOM measurement fails, so both dimensions default to 0. -/
def zeroDimCandidate : ThumbnailCandidate :=
  { url := "https://example.com/frame.jpg", source := "container image",
    confidence := 0.6, width := none, height := none, aspect := none,
    method := "dom-traversal" }

/-- A video-poster candidate measured at 1280×720 during validation. -/
def bigPosterCandidate : ThumbnailCandidate :=
  { url := "https://example.com/big.jpg", source := "video poster",
    confidence := 0.9, width := none, height := none, aspect := none,
    method := "video-element" }

/-- `bigPosterCandidate` after validation and scoring. -/
def bigPosterValidated : ThumbnailCandidate :=
  { url := "https://example.com/big.jpg", source := "video poster",
    confidence := 1, width := some 1280, height := some 720,
    aspect := some (mkRat 16 9), method := "video-element" }

/-- A page with one element whose class contains "player" but no native
video element and no embed-host iframe. -/
def classPlayerOnlySignals : PageVideoSignals :=
  { hasVideoElement := false, classVideo := false, idVideo := false,
    classPlayer := true, idPlayer := false, iframeYoutube := false,
    iframeVimeo := false, iframeDailymotion := false, iframeTwitch := false }

def envCropNoVideoElement : OrchEnv :=
  { navigationOk := true, bannerFailed := false,
    detection := .ok (detectVideoThumbnail (fun u => u) (fun _ => (0, 0))
      classPlayerOnlySignals []),
    fetchResult := .error (), cropResult := none, regularResult := .ok 0 }

/-- A page with a native video element only. -/
def videoElemSignals : PageVideoSignals :=
  { hasVideoElement := true, classVideo := false, idVideo := false,
    classPlayer := false, idPlayer := false, iframeYoutube := false,
    iframeVimeo := false, iframeDailymotion := false, iframeTwitch := false }

def envCropWitness : OrchEnv :=
  { navigationOk := true, bannerFailed := false,
    detection := .ok (detectVideoThumbnail (fun u => u) (fun _ => (0, 0))
      videoElemSignals []),
    fetchResult := .error (), cropResult := some 3, regularResult := .ok 0 }

/-- A low-confidence DOM-traversal candidate whose URL happens to contain
the substring "thumbnail_url". -/
def urlParamCandidate : ThumbnailCandidate :=
  { url := "https://example.com/media?thumbnail_url=frame.jpg",
    source := "container image", confidence := 0.6,
    width := some 640, height := some 360, aspect := some (mkRat 16 9),
    method := "dom-traversal" }

def envUrlParam : OrchEnv :=
  { navigationOk := true, bannerFailed := false,
    detection := .ok ({ hasVideo := true,
                        thumbnail := some urlParamCandidate,
                        candidates := [urlParamCandidate] } : VideoDetectionResult),
    fetchResult := .ok 0, cropResult := none, regularResult := .ok 0 }

/-- An invocation whose page setup/navigation fails. -/
def envNavFail : OrchEnv :=
  { navigationOk := false, bannerFailed := false, detection := .error (),
    fetchResult := .error (), cropResult := none, regularResult := .ok 0 }

/-- An invocation in which detection throws but the plain capture works. -/
def envDetectError : OrchEnv :=
  { navigationOk := true, bannerFailed := false, detection := .error (),
    fetchResult := .error (), cropResult := none, regularResult := .ok 5 }

/-- A page on which no banner pattern ever matches and the time budget
never runs out. -/
def quietBannerEnv : BannerEnv :=
  { timeUpAtLoopHead := fun _ => false, timeUpAtPattern := fun _ _ => false,
    applies := fun _ _ => false }

/-- A page where only the first catalog pattern matches, once, in pass 1. -/
def oneBannerEnv : BannerEnv :=
  { timeUpAtLoopHead := fun _ => false, timeUpAtPattern := fun _ _ => false,
    applies := fun p j => p == 1 && j == 0 }

lemma zero_aspect_no_bonus :
    (PREFERRED_ASPECT_RATIOS.any (fun q => decide (ratAbs ((0 : ℚ) - q) ≤ 0.1))) = false := by
  with_unfolding_all decide

lemma ite_area_eq (conf : ℚ) (width height : Option ℕ) :
    (if truthyNat width && truthyNat height then
        if 500000 < width.getD 0 * height.getD 0 then conf + 0.1
        else if 200000 < width.getD 0 * height.getD 0 then conf + 0.05
        else conf
      else conf) =
    conf + (match width, height with
            | some w, some h =>
              if 500000 < w * h then (0.1 : ℚ) else if 200000 < w * h then 0.05 else 0
            | _, _ => 0) := by
  rcases width with _ | w <;> rcases height with _ | h
  · simp [truthyNat]
  · simp [truthyNat]
  · simp [truthyNat]
  · by_cases hw : w = 0
    · subst hw; simp [truthyNat, Nat.zero_mul, Nat.not_lt_zero]
    · by_cases hh : h = 0
      · subst hh; simp [truthyNat, Nat.mul_zero, Nat.not_lt_zero]
      · have hw2 : (w != 0) = true := by simpa using hw
        have hh2 : (h != 0) = true := by simpa using hh
        simp only [truthyNat, hw2, hh2, Bool.and_self, if_true, Option.getD]
        split_ifs <;> ring

lemma ite_aspect_eq (x : ℚ) (aspect : Option ℚ) :
    (if truthyRat aspect then
        if PREFERRED_ASPECT_RATIOS.any
            (fun q => decide (ratAbs (aspect.getD 0 - q) ≤ 0.1)) then x + 0.1
        else x
      else x) =
    x + (match aspect with
         | some r =>
           if PREFERRED_ASPECT_RATIOS.any
               (fun q => decide (ratAbs (r - q) ≤ 0.1)) then (0.1 : ℚ) else 0
         | none => 0) := by
  rcases aspect with _ | r
  · simp [truthyRat]
  · by_cases hr : r = 0
    · subst hr
      simp only [truthyRat, bne_self_eq_false, Bool.false_eq_true, if_false,
        zero_aspect_no_bonus, add_zero]
    · have hr2 : (r != 0) = true := by simpa using hr
      simp only [truthyRat, hr2, if_true, Option.getD]
      split_ifs <;> ring

lemma ite_source_eq (x : ℚ) (source : String) :
    (if strContains source "video" || strContains source "poster" then x + 0.1 else x) =
    x + (if strContains source "video" || strContains source "poster" then (0.1 : ℚ) else 0) := by
  split_ifs <;> ring

lemma calculateFinalConfidence_eq (c : ThumbnailCandidate) :
    calculateFinalConfidence c =
      min (c.confidence + areaBonus c + aspectBonus c + sourceBonus c) 1 := by
  obtain ⟨url, source, conf, width, height, aspect, method⟩ := c
  unfold calculateFinalConfidence areaBonus aspectBonus sourceBonus
  dsimp only
  rw [ite_area_eq, ite_aspect_eq, ite_source_eq]

lemma areaBonus_nonneg (c : ThumbnailCandidate) : 0 ≤ areaBonus c := by
  unfold areaBonus
  split
  · split_ifs <;> norm_num
  · norm_num

lemma aspectBonus_nonneg (c : ThumbnailCandidate) : 0 ≤ aspectBonus c := by
  unfold aspectBonus
  split
  · split_ifs <;> norm_num
  · norm_num

lemma sourceBonus_nonneg (c : ThumbnailCandidate) : 0 ≤ sourceBonus c := by
  unfold sourceBonus
  split_ifs <;> norm_num

/-- C5: for every candidate, the final confidence equals the base
confidence plus the area bonus (+0.1 if the pixel area exceeds 500,000,
else +0.05 if it exceeds 200,000), plus the aspect bonus (+0.1 if the
aspect ratio is within 0.1 of a preferred ratio), plus the source bonus
(+0.1 if the source contains "video" or "poster"), capped at 1.0; hence,
when the base confidence is at most 1, the final confidence lies between
the base confidence and 1. -/
theorem finalConfidence_spec (c : ThumbnailCandidate) (hbase : c.confidence ≤ 1) :
    calculateFinalConfidence c =
      min (c.confidence + areaBonus c + aspectBonus c + sourceBonus c) 1 ∧
    c.confidence ≤ calculateFinalConfidence c ∧
    calculateFinalConfidence c ≤ 1 := by
  have heq := calculateFinalConfidence_eq c
  refine ⟨heq, ?_, ?_⟩
  · rw [heq]
    have h1 := areaBonus_nonneg c
    have h2 := aspectBonus_nonneg c
    have h3 := sourceBonus_nonneg c
    exact le_min (by linarith) hbase
  · rw [heq]
    exact min_le_right _ _

theorem finalConfidence_spec_witness :
    scenarioACandidate.confidence ≤ 1 ∧
    (calculateFinalConfidence scenarioACandidate =
      min (scenarioACandidate.confidence + areaBonus scenarioACandidate +
        aspectBonus scenarioACandidate + sourceBonus scenarioACandidate) 1 ∧
     scenarioACandidate.confidence ≤ calculateFinalConfidence scenarioACandidate ∧
     calculateFinalConfidence scenarioACandidate ≤ 1) :=
  ⟨by with_unfolding_all decide,
   finalConfidence_spec scenarioACandidate (by with_unfolding_all decide)⟩

lemma insertByConfidenceDesc_perm (c : ThumbnailCandidate) (l : List ThumbnailCandidate) :
    List.Perm (insertByConfidenceDesc c l) (c :: l) := by
  induction l with
  | nil => exact List.Perm.refl _
  | cons d ds ih =>
    by_cases h : d.confidence ≤ c.confidence
    · rw [insertByConfidenceDesc, if_pos h]
    · rw [insertByConfidenceDesc, if_neg h]
      exact (ih.cons d).trans (List.Perm.swap c d ds)

lemma sortByConfidenceDesc_perm (l : List ThumbnailCandidate) :
    List.Perm (sortByConfidenceDesc l) l := by
  induction l with
  | nil => exact List.Perm.refl _
  | cons c cs ih =>
    exact (insertByConfidenceDesc_perm c (sortByConfidenceDesc cs)).trans (ih.cons c)

lemma head?_insertByConfidenceDesc (c : ThumbnailCandidate) (l : List ThumbnailCandidate) :
    (insertByConfidenceDesc c l).head? =
      some (match l with
            | [] => c
            | d :: _ => if d.confidence ≤ c.confidence then c else d) := by
  cases l with
  | nil => rfl
  | cons d ds =>
    dsimp only
    by_cases h : d.confidence ≤ c.confidence
    · rw [insertByConfidenceDesc, if_pos h, if_pos h]; rfl
    · rw [insertByConfidenceDesc, if_neg h, if_neg h]; rfl

lemma find?_congr_of_imp {α : Type} {p q : α → Bool} {l : List α} {y : α}
    (himp : ∀ a, p a = true → q a = true) (hq : l.find? q = some y)
    (hpy : p y = true) : l.find? p = some y := by
  induction l with
  | nil => simp at hq
  | cons a as ih =>
    by_cases hqa : q a = true
    · rw [List.find?_cons_of_pos _ hqa] at hq
      have : a = y := by injection hq
      subst this
      exact List.find?_cons_of_pos _ hpy
    · have hpa : ¬ p a = true := fun hp => hqa (himp a hp)
      rw [List.find?_cons_of_neg _ (by simpa using hqa)] at hq
      rw [List.find?_cons_of_neg _ (by simpa using hpa)]
      exact ih hq

/-- C6: `selectBestCandidate` returns `none` on the empty list and
otherwise the first candidate, in encounter order, whose final confidence
is maximal (ties are broken by encounter order, because the sort is
stable). -/
theorem selectBestCandidate_firstMax (l : List ThumbnailCandidate) :
    selectBestCandidate l = firstMaxCandidate l := by
  induction l with
  | nil => rfl
  | cons x xs ih =>
    unfold selectBestCandidate firstMaxCandidate at ih ⊢
    rw [sortByConfidenceDesc, head?_insertByConfidenceDesc]
    cases hs : sortByConfidenceDesc xs with
    | nil =>
      have hxs : xs = [] := by
        have hp := sortByConfidenceDesc_perm xs
        rw [hs] at hp
        exact hp.symm.eq_nil
      subst hxs
      simp
    | cons y ys =>
      dsimp only
      rw [hs] at ih
      have hy : xs.find? (fun c => xs.all (fun d => decide (d.confidence ≤ c.confidence)))
          = some y := by
        rw [← ih]; rfl
      have hymem : y ∈ xs := List.mem_of_find?_eq_some hy
      have hymax : ∀ d ∈ xs, d.confidence ≤ y.confidence := by
        have := List.find?_some hy
        intro d hd
        have h2 := List.all_eq_true.mp this d hd
        simpa using h2
      by_cases hxy : y.confidence ≤ x.confidence
      · rw [if_pos hxy]
        have hpx : (fun c => (x :: xs).all
            fun d => decide (d.confidence ≤ c.confidence)) x = true := by
          show ((x :: xs).all (fun d => decide (d.confidence ≤ x.confidence))) = true
          rw [List.all_eq_true]
          intro d hd
          rw [decide_eq_true_eq]
          rcases List.mem_cons.mp hd with h1 | h2
          · rw [h1]
          · exact le_trans (hymax d h2) hxy
        exact (List.find?_cons_of_pos xs hpx).symm
      · rw [if_neg hxy]
        have hxlt : x.confidence < y.confidence := lt_of_not_le hxy
        have hpx : (fun c => (x :: xs).all
            fun d => decide (d.confidence ≤ c.confidence)) x = false := by
          show ((x :: xs).all (fun d => decide (d.confidence ≤ x.confidence))) = false
          rw [Bool.eq_false_iff]
          intro hcon
          rw [List.all_eq_true] at hcon
          have hyx := hcon y (List.mem_cons_of_mem x hymem)
          rw [decide_eq_true_eq] at hyx
          exact hxy hyx
        rw [List.find?_cons_of_neg _ (by simp [hpx])]
        refine Eq.symm (find?_congr_of_imp ?_ hy ?_)
        · intro a ha
          simp only [List.all_cons, Bool.and_eq_true] at ha
          exact ha.2
        · simp only [List.all_cons, Bool.and_eq_true, decide_eq_true_eq, List.all_eq_true]
          refine ⟨le_of_lt hxlt, ?_⟩
          intro d hd
          exact hymax d hd

lemma pairwise_insertByConfidenceDesc (c : ThumbnailCandidate)
    (l : List ThumbnailCandidate)
    (hl : l.Pairwise (fun a b => b.confidence ≤ a.confidence)) :
    (insertByConfidenceDesc c l).Pairwise (fun a b => b.confidence ≤ a.confidence) := by
  induction l with
  | nil => simp [insertByConfidenceDesc]
  | cons d ds ih =>
    rw [List.pairwise_cons] at hl
    by_cases h : d.confidence ≤ c.confidence
    · rw [insertByConfidenceDesc, if_pos h]
      rw [List.pairwise_cons]
      constructor
      · intro z hz
        rcases List.mem_cons.mp hz with h1 | h2
        · rw [h1]; exact h
        · exact le_trans (hl.1 z h2) h
      · rw [List.pairwise_cons]
        exact hl
    · rw [insertByConfidenceDesc, if_neg h]
      rw [List.pairwise_cons]
      constructor
      · intro z hz
        rcases List.mem_cons.mp ((insertByConfidenceDesc_perm c ds).mem_iff.mp hz) with h1 | h2
        · rw [h1]; exact le_of_lt (lt_of_not_le h)
        · exact hl.1 z h2
      · exact ih hl.2

lemma pairwise_sortByConfidenceDesc (l : List ThumbnailCandidate) :
    (sortByConfidenceDesc l).Pairwise (fun a b => b.confidence ≤ a.confidence) := by
  induction l with
  | nil => simp [sortByConfidenceDesc]
  | cons c cs ih => exact pairwise_insertByConfidenceDesc c _ ih

/-- C10: selection sorts the validated-candidate array in place, so the
`candidates` sequence of the returned `VideoDetectionResult` is a
permutation of the validated candidates ordered by non-increasing final
confidence, not in extractor (encounter) order. -/
theorem detection_candidates_sorted (resolve : String → String)
    (measure : String → ℕ × ℕ) (signals : PageVideoSignals)
    (raw : List ThumbnailCandidate) :
    (detectVideoThumbnail resolve measure signals raw).candidates.Pairwise
      (fun a b => b.confidence ≤ a.confidence) ∧
    List.Perm (detectVideoThumbnail resolve measure signals raw).candidates
      (validateAndScoreCandidates resolve measure raw) := by
  constructor
  · exact pairwise_sortByConfidenceDesc _
  · exact sortByConfidenceDesc_perm _

/-- C1 counterexample: a candidate whose measured dimensions defaulted to
zero passes `isValidThumbnail` (JS truthiness skips the minimum-size check
for `0`) and is returned among the validated candidates, contradicting the
claim that it is discarded. -/
theorem zeroDimensions_candidate_survives :
    validateAndScoreCandidates (fun u => u) (fun _ => (0, 0)) [zeroDimCandidate] =
      [{ zeroDimCandidate with width := some 0, height := some 0 }] ∧
    (0 < MIN_THUMBNAIL_WIDTH ∧ 0 < MIN_THUMBNAIL_HEIGHT) := by
  constructor
  · with_unfolding_all decide
  · constructor <;> decide

/-- C1 (amended): the validator discards a candidate whose width is known,
nonzero and below 200, or whose height is known, nonzero and below 150;
a dimension of zero (the off-DOM measurement-failure default) is falsy in
JS and skips the minimum-size check, so every validated candidate has
width zero or at least 200 and height zero or at least 150. -/
theorem validatedCandidates_minSize (resolve : String → String)
    (measure : String → ℕ × ℕ) (l : List ThumbnailCandidate)
    (c : ThumbnailCandidate)
    (hc : c ∈ validateAndScoreCandidates resolve measure l) :
    (∀ w, c.width = some w → w = 0 ∨ MIN_THUMBNAIL_WIDTH ≤ w) ∧
    (∀ h, c.height = some h → h = 0 ∨ MIN_THUMBNAIL_HEIGHT ≤ h) := by
  rw [validateAndScoreCandidates, List.mem_filterMap] at hc
  obtain ⟨a, -, ha⟩ := hc
  by_cases hv : isValidThumbnail (fillAspect (measureDims measure
      { a with url := resolve a.url })) = true
  · rw [if_pos hv] at ha
    have hca : c = { fillAspect (measureDims measure { a with url := resolve a.url }) with
        confidence := calculateFinalConfidence (fillAspect (measureDims measure
          { a with url := resolve a.url })) } := by
      exact (Option.some.injEq _ _ ▸ ha).symm
    rw [isValidThumbnail] at hv
    by_cases h1 : (truthyNat (fillAspect (measureDims measure
        { a with url := resolve a.url })).width && decide ((fillAspect (measureDims measure
        { a with url := resolve a.url })).width.getD 0 < MIN_THUMBNAIL_WIDTH)) = true
    · rw [if_pos h1] at hv
      exact absurd hv (by simp)
    · by_cases h2 : (truthyNat (fillAspect (measureDims measure
          { a with url := resolve a.url })).height && decide ((fillAspect (measureDims measure
          { a with url := resolve a.url })).height.getD 0 < MIN_THUMBNAIL_HEIGHT)) = true
      · rw [if_neg h1, if_pos h2] at hv
        exact absurd hv (by simp)
      · constructor
        · intro w hw
          rw [hca] at hw
          simp only [Bool.and_eq_true, not_and, Bool.not_eq_true] at h1
          by_cases hw0 : w = 0
          · exact Or.inl hw0
          · refine Or.inr ?_
            have ht : truthyNat (fillAspect (measureDims measure
                { a with url := resolve a.url })).width = true := by
              rw [hw]
              simp [truthyNat, hw0]
            have := h1 ht
            rw [hw] at this
            simp only [Option.getD, decide_eq_false_iff_not, not_lt] at this
            exact this
        · intro h hh
          rw [hca] at hh
          simp only [Bool.and_eq_true, not_and, Bool.not_eq_true] at h2
          by_cases hh0 : h = 0
          · exact Or.inl hh0
          · refine Or.inr ?_
            have ht : truthyNat (fillAspect (measureDims measure
                { a with url := resolve a.url })).height = true := by
              rw [hh]
              simp [truthyNat, hh0]
            have := h2 ht
            rw [hh] at this
            simp only [Option.getD, decide_eq_false_iff_not, not_lt] at this
            exact this
  · rw [if_neg hv] at ha
    exact absurd ha (by simp)

set_option maxRecDepth 4000 in
theorem validatedCandidates_minSize_witness :
    (bigPosterValidated ∈
      validateAndScoreCandidates (fun u => u) (fun _ => (1280, 720)) [bigPosterCandidate]) ∧
    (∀ w, bigPosterValidated.width = some w → w = 0 ∨ MIN_THUMBNAIL_WIDTH ≤ w) :=
  ⟨by with_unfolding_all decide,
   (validatedCandidates_minSize (fun u => u) (fun _ => (1280, 720)) [bigPosterCandidate]
      bigPosterValidated (by with_unfolding_all decide)).1⟩

/-- C2 (amended): when detection ran and no thumbnail candidate was
selected, a region crop is attempted if and only if `hasVideo` holds,
i.e. at least one raw candidate was extracted, or a native video element,
an element whose class or id contains "video" or "player", or a
YouTube/Vimeo/Dailymotion/Twitch iframe exists — not only when a native
video element or a known embed-host iframe exists. -/
theorem cropGate_eq_hasVideo (env : OrchEnv) (resolve : String → String)
    (measure : String → ℕ × ℕ) (signals : PageVideoSignals)
    (raw : List ThumbnailCandidate)
    (hdet : env.detection = .ok (detectVideoThumbnail resolve measure signals raw))
    (hnone : (detectVideoThumbnail resolve measure signals raw).thumbnail = none)
    (hnav : env.navigationOk = true) :
    (takeIntelligentScreenshot true env).cropAttempted =
      (!raw.isEmpty || detectVideoPresence signals) := by
  unfold takeIntelligentScreenshot
  rw [hnav, hdet]
  simp only [Bool.not_true, Bool.false_eq_true, if_false, if_true]
  rw [hnone]
  dsimp only
  have hv : (detectVideoThumbnail resolve measure signals raw).hasVideo =
      (!raw.isEmpty || detectVideoPresence signals) := rfl
  rw [hv]
  cases hb : (!raw.isEmpty || detectVideoPresence signals)
  · simp only [Bool.false_eq_true, if_false]
    rfl
  · simp only [if_true]
    cases env.cropResult <;> rfl

/-- C2 counterexample: with no selected candidate, no native video element
and no known embed-host iframe, the orchestrator still attempts a region
crop, because `detectVideoPresence` also matches `class*="player"`-style
containers. -/
theorem cropAttempted_without_videoElement_or_iframe :
    (takeIntelligentScreenshot true envCropNoVideoElement).cropAttempted = true ∧
    videoElementOrEmbedIframe classPlayerOnlySignals = false := by
  constructor
  · with_unfolding_all decide
  · decide

theorem cropGate_eq_hasVideo_witness :
    (takeIntelligentScreenshot true envCropWitness).cropAttempted =
      (!(([] : List ThumbnailCandidate)).isEmpty || detectVideoPresence videoElemSignals) :=
  cropGate_eq_hasVideo envCropWitness (fun u => u) (fun _ => (0, 0)) videoElemSignals []
    rfl rfl rfl

set_option maxRecDepth 4000 in
/-- C4 counterexample: a selected candidate whose source is not
oEmbed/VideoObject, whose confidence is below 0.8, and whose URL matches
no YouTube/Vimeo/Dailymotion CDN pattern is still returned as a URL
directly (no byte fetch), because the code additionally matches the
substring "thumbnail_url" in the URL. -/
theorem directUrl_thumbnailUrlSubstring :
    (takeIntelligentScreenshot true envUrlParam).result =
      .ok { image := none, thumbnailUrl := some urlParamCandidate.url,
            isVideoThumbnail := true } ∧
    (takeIntelligentScreenshot true envUrlParam).fetchAttempted = false ∧
    claimDirectUrlCondition urlParamCandidate = false := by
  refine ⟨?_, ?_, ?_⟩ <;> with_unfolding_all decide

set_option maxRecDepth 4000 in
/-- C4 (amended): with a selected candidate, the orchestrator returns the
candidate's URL directly (without fetching bytes) iff the source is oEmbed
or schema.org VideoObject, the confidence is at least 0.8, the URL matches
a known YouTube/Vimeo/Dailymotion CDN pattern, or the URL contains the
substring "thumbnail_url"; in every other selected-candidate case it first
attempts to fetch the candidate's bytes. -/
theorem directUrl_condition_amended (env : OrchEnv) (d : VideoDetectionResult)
    (t : ThumbnailCandidate) (hnav : env.navigationOk = true)
    (hdet : env.detection = .ok d) (ht : d.thumbnail = some t) :
    (((takeIntelligentScreenshot true env).result =
        .ok { image := none, thumbnailUrl := some t.url, isVideoThumbnail := true } ∧
      (takeIntelligentScreenshot true env).fetchAttempted = false) ↔
      shouldReturnUrlDirectly t = true) ∧
    (shouldReturnUrlDirectly t = true ↔
      (claimDirectUrlCondition t = true ∨ strContains t.url "thumbnail_url" = true)) ∧
    (shouldReturnUrlDirectly t = false →
      (takeIntelligentScreenshot true env).fetchAttempted = true) := by
  have hred : takeIntelligentScreenshot true env =
      (if shouldReturnUrlDirectly t then
        { result := .ok { image := none, thumbnailUrl := some t.url,
                          isVideoThumbnail := true },
          fetchAttempted := false, cropAttempted := false }
      else
        match env.fetchResult with
        | .ok b =>
          { result := .ok { image := some b, thumbnailUrl := none,
                            isVideoThumbnail := true },
            fetchAttempted := true, cropAttempted := false }
        | .error _ =>
          match env.cropResult with
          | some b =>
            { result := .ok { image := some b, thumbnailUrl := none,
                              isVideoThumbnail := true },
              fetchAttempted := true, cropAttempted := true }
          | none => regularOutcome env true true) := by
    unfold takeIntelligentScreenshot
    rw [hnav, hdet]
    simp only [Bool.not_true, Bool.false_eq_true, if_false, if_true]
    rw [ht]
  refine ⟨?_, ?_, ?_⟩
  · rw [hred]
    cases hS : shouldReturnUrlDirectly t
    · simp only [Bool.false_eq_true, if_false]
      constructor
      · intro hcon
        exfalso
        cases hf : env.fetchResult with
        | ok b => rw [hf] at hcon; exact absurd hcon.2 (by simp)
        | error e =>
          rw [hf] at hcon
          cases hc : env.cropResult with
          | some b => rw [hc] at hcon; exact absurd hcon.2 (by simp)
          | none => rw [hc] at hcon; exact absurd hcon.2 (by simp [regularOutcome])
      · intro hcon
        exact absurd hcon (by simp)
    · rw [if_pos rfl]
      constructor
      · intro _; rfl
      · intro _; exact ⟨rfl, rfl⟩
  · unfold shouldReturnUrlDirectly claimDirectUrlCondition
    simp only [Bool.or_eq_true]
    tauto
  · intro hS
    rw [hred, hS]
    simp only [Bool.false_eq_true, if_false]
    cases env.fetchResult with
    | ok b => rfl
    | error e =>
      cases env.cropResult with
      | some b => rfl
      | none => rfl

theorem directUrl_condition_amended_witness :
    shouldReturnUrlDirectly urlParamCandidate = true ↔
      (claimDirectUrlCondition urlParamCandidate = true ∨
       strContains urlParamCandidate.url "thumbnail_url" = true) :=
  (directUrl_condition_amended envUrlParam
    { hasVideo := true, thumbnail := some urlParamCandidate,
      candidates := [urlParamCandidate] }
    urlParamCandidate rfl rfl rfl).2.1

/-- C9: the orchestrator absorbs detection, thumbnail-fetch and crop
failures: an error propagates only when page setup/navigation failed or
the plain capture itself failed; and every successful result carries
exactly one variant — image bytes or a thumbnail URL, never both and
never neither. -/
theorem orchestrator_total_oneVariant (detect : Bool) (env : OrchEnv) :
    ((takeIntelligentScreenshot detect env).result = .error () →
      env.navigationOk = false ∨ env.regularResult = .error ()) ∧
    (∀ r, (takeIntelligentScreenshot detect env).result = .ok r →
      (r.image.isSome = true ∧ r.thumbnailUrl = none) ∨
      (r.image = none ∧ r.thumbnailUrl.isSome = true)) := by
  obtain ⟨nav, banner, det, fetch, crop, regular⟩ := env
  cases nav with
  | false =>
    constructor
    · intro _
      exact Or.inl rfl
    · intro r hr
      cases detect <;> exact absurd hr (by simp [takeIntelligentScreenshot])
  | true =>
    have hreg : ∀ (fa ca : Bool),
        ((regularOutcome ⟨true, banner, det, fetch, crop, regular⟩ fa ca).result =
            .error () →
          (true = false ∨ regular = .error ())) ∧
        (∀ r, (regularOutcome ⟨true, banner, det, fetch, crop, regular⟩ fa ca).result =
            .ok r →
          (r.image.isSome = true ∧ r.thumbnailUrl = none) ∨
          (r.image = none ∧ r.thumbnailUrl.isSome = true)) := by
      intro fa ca
      cases regular with
      | error e =>
        cases e
        constructor
        · intro _
          exact Or.inr rfl
        · intro r hr
          exact absurd hr (by simp [regularOutcome, Except.map])
      | ok b =>
        constructor
        · intro hr
          exact absurd hr (by simp [regularOutcome, Except.map])
        · intro r hr
          have hr2 : r = ⟨some b, none, false⟩ := by
            simp [regularOutcome, Except.map] at hr
            exact hr.symm
          rw [hr2]
          exact Or.inl ⟨rfl, rfl⟩
    cases detect with
    | false => exact hreg false false
    | true =>
      cases det with
      | error e => exact hreg false false
      | ok d =>
        obtain ⟨hv, th, cs⟩ := d
        cases th with
        | none =>
          cases hv with
          | false => exact hreg false false
          | true =>
            cases crop with
            | none => exact hreg false true
            | some b =>
              constructor
              · intro hr
                exact absurd hr (by simp [takeIntelligentScreenshot])
              · intro r hr
                have hr2 : r = ⟨some b, none, true⟩ := by
                  simp [takeIntelligentScreenshot] at hr
                  exact hr.symm
                rw [hr2]
                exact Or.inl ⟨rfl, rfl⟩
        | some t =>
          cases hS : shouldReturnUrlDirectly t with
          | true =>
            constructor
            · intro hr
              exact absurd hr (by simp [takeIntelligentScreenshot, hS])
            · intro r hr
              have hr2 : r = ⟨none, some t.url, true⟩ := by
                simp [takeIntelligentScreenshot, hS] at hr
                exact hr.symm
              rw [hr2]
              exact Or.inr ⟨rfl, rfl⟩
          | false =>
            cases fetch with
            | ok b =>
              constructor
              · intro hr
                exact absurd hr (by simp [takeIntelligentScreenshot, hS])
              · intro r hr
                have hr2 : r = ⟨some b, none, true⟩ := by
                  simp [takeIntelligentScreenshot, hS] at hr
                  exact hr.symm
                rw [hr2]
                exact Or.inl ⟨rfl, rfl⟩
            | error e =>
              cases e
              cases crop with
              | none =>
                constructor
                · intro hr
                  simp [takeIntelligentScreenshot, hS] at hr
                  cases regular with
                  | error e2 => exact Or.inr rfl
                  | ok b2 => simp [regularOutcome, Except.map] at hr
                · intro r hr
                  simp [takeIntelligentScreenshot, hS] at hr
                  cases regular with
                  | error e2 => simp [regularOutcome, Except.map] at hr
                  | ok b2 =>
                    have hr2 : r = ⟨some b2, none, false⟩ := by
                      simp [regularOutcome, Except.map] at hr
                      exact hr.symm
                    rw [hr2]
                    exact Or.inl ⟨rfl, rfl⟩
              | some b =>
                constructor
                · intro hr
                  exact absurd hr (by simp [takeIntelligentScreenshot, hS])
                · intro r hr
                  have hr2 : r = ⟨some b, none, true⟩ := by
                    simp [takeIntelligentScreenshot, hS] at hr
                    exact hr.symm
                  rw [hr2]
                  exact Or.inl ⟨rfl, rfl⟩

theorem orchestrator_total_oneVariant_witness :
    (envNavFail.navigationOk = false ∨ envNavFail.regularResult = .error ()) ∧
    (((⟨some 5, none, false⟩ : ScreenshotResult).image.isSome = true ∧
      (⟨some 5, none, false⟩ : ScreenshotResult).thumbnailUrl = none) ∨
     ((⟨some 5, none, false⟩ : ScreenshotResult).image = none ∧
      (⟨some 5, none, false⟩ : ScreenshotResult).thumbnailUrl.isSome = true)) :=
  ⟨(orchestrator_total_oneVariant true envNavFail).1 rfl,
   (orchestrator_total_oneVariant true envDetectError).2 ⟨some 5, none, false⟩ rfl⟩

/-- C3 counterexample: the cookie-consent pattern at index 1
("Cookie Accept All") is tried before the age-verification pattern at
index 4 ("Age Verification - 18+"), so it is not the case that all
age-verification patterns are tried before any cookie-consent pattern. -/
theorem ageVerification_after_cookie :
    isCookieConsentPattern (COMMON_BANNER_PATTERNS.get ⟨1, by decide⟩) = true ∧
    isAgeVerificationPattern (COMMON_BANNER_PATTERNS.get ⟨4, by decide⟩) = true ∧
    (1 : ℕ) < 4 := by
  refine ⟨by decide, by decide, by decide⟩

/-- C3 (amended): the catalog is iterated in its fixed order
[Adult Site Age Verification, Cookie Accept All, German Cookie Accept,
Cookie OK/Agree, Age Verification - 18+, YouTube Cookie Accept,
Modal Close, GDPR Accept, Newsletter Close]: one age-verification pattern
comes first, but the second one follows three cookie-consent patterns;
all age-verification and cookie-consent patterns do precede every generic
modal, GDPR, and newsletter pattern. -/
theorem catalogOrder_amended :
    COMMON_BANNER_PATTERNS.map BannerPattern.name =
      ["Adult Site Age Verification", "Cookie Accept All", "German Cookie Accept",
       "Cookie OK/Agree", "Age Verification - 18+", "YouTube Cookie Accept",
       "Modal Close", "GDPR Accept", "Newsletter Close"] ∧
    (∀ i j : Fin COMMON_BANNER_PATTERNS.length,
      (isAgeVerificationPattern (COMMON_BANNER_PATTERNS.get i) = true ∨
       isCookieConsentPattern (COMMON_BANNER_PATTERNS.get i) = true) →
      isGenericModalPattern (COMMON_BANNER_PATTERNS.get j) = true →
      (i : ℕ) < (j : ℕ)) := by
  constructor
  · rfl
  · decide

theorem catalogOrder_amended_witness :
    isGenericModalPattern (COMMON_BANNER_PATTERNS.get ⟨6, by decide⟩) = true ∧
    (0 : ℕ) < 6 :=
  ⟨by decide,
   catalogOrder_amended.2 ⟨0, by decide⟩ ⟨6, by decide⟩ (Or.inl (by decide)) (by decide)⟩

lemma bannerLoopGo_passes_le (env : BannerEnv) :
    ∀ fuel attempts handled evs,
      (bannerLoopGo env fuel attempts handled evs).passes ≤ attempts + fuel := by
  intro fuel
  induction fuel with
  | zero =>
    intro a h e
    rw [bannerLoopGo]
    split <;> simp
  | succ f ih =>
    intro a h e
    rw [bannerLoopGo]
    split
    · simp
    · dsimp only
      split
      · exact le_trans (ih (a + 1) (h + 1) _) (by omega)
      · simp
      · simp

lemma bannerLoopGo_reason_spec (env : BannerEnv) :
    ∀ fuel attempts handled evs,
      ((bannerLoopGo env fuel attempts handled evs).reason = .capReached →
        (bannerLoopGo env fuel attempts handled evs).passes = attempts + fuel) ∧
      ((bannerLoopGo env fuel attempts handled evs).reason = .noneFound →
        (scanCatalog env (bannerLoopGo env fuel attempts handled evs).passes 0
          COMMON_BANNER_PATTERNS).outcome = .exhausted) ∧
      ((bannerLoopGo env fuel attempts handled evs).reason = .timeUp →
        env.timeUpAtLoopHead (bannerLoopGo env fuel attempts handled evs).passes = true ∨
        (scanCatalog env (bannerLoopGo env fuel attempts handled evs).passes 0
          COMMON_BANNER_PATTERNS).outcome = .timedOut) := by
  intro fuel
  induction fuel with
  | zero =>
    intro a h e
    rw [bannerLoopGo]
    split
    · rename_i ht
      refine ⟨?_, ?_, ?_⟩
      · intro hr; exact absurd hr (by simp)
      · intro hr; exact absurd hr (by simp)
      · intro _; exact Or.inl ht
    · refine ⟨?_, ?_, ?_⟩
      · intro _; simp
      · intro hr; exact absurd hr (by simp)
      · intro hr; exact absurd hr (by simp)
  | succ f ih =>
    intro a h e
    rw [bannerLoopGo]
    split
    · rename_i ht
      refine ⟨?_, ?_, ?_⟩
      · intro hr; exact absurd hr (by simp)
      · intro hr; exact absurd hr (by simp)
      · intro _; exact Or.inl ht
    · dsimp only
      split
      · refine ⟨?_, (ih (a + 1) (h + 1) _).2.1, (ih (a + 1) (h + 1) _).2.2⟩
        intro hr
        have hp := (ih (a + 1) (h + 1) _).1 hr
        omega
      · rename_i ho
        refine ⟨?_, ?_, ?_⟩
        · intro hr; exact absurd hr (by simp)
        · intro _
          exact ho
        · intro hr; exact absurd hr (by simp)
      · rename_i ho
        refine ⟨?_, ?_, ?_⟩
        · intro hr; exact absurd hr (by simp)
        · intro hr; exact absurd hr (by simp)
        · intro _
          exact Or.inr ho

lemma scanCatalog_outcome_exhausted (env : BannerEnv) (p : ℕ)
    (htime : ∀ j, env.timeUpAtPattern p j = false)
    (happ : ∀ j, env.applies p j = false) :
    ∀ j ps, (scanCatalog env p j ps).outcome = .exhausted := by
  intro j ps
  induction ps generalizing j with
  | nil => rfl
  | cons pat rest ih =>
    rw [scanCatalog]
    rw [htime j]
    rw [if_neg (by simp)]
    rw [happ j]
    rw [if_neg (by simp)]
    exact ih (j + 1)

lemma bannerLoop_quiet (env : BannerEnv) (fuel a h : ℕ) (evs : List BannerEvent)
    (ht0 : env.timeUpAtLoopHead a = false)
    (htime : ∀ j, env.timeUpAtPattern (a + 1) j = false)
    (happ : ∀ j, env.applies (a + 1) j = false) :
    bannerLoopGo env (fuel + 1) a h evs =
      { passes := a + 1, bannersHandled := h, reason := .noneFound,
        events := evs ++ (scanCatalog env (a + 1) 0 COMMON_BANNER_PATTERNS).events } := by
  rw [bannerLoopGo, ht0]
  rw [if_neg (by simp)]
  dsimp only
  rw [scanCatalog_outcome_exhausted env (a + 1) htime happ 0 COMMON_BANNER_PATTERNS]

/-- C7: the banner loop always terminates within the 5-pass cap; the
terminal state is reached exactly through one of: the most recent pass was
a full catalog pass with no match (`noneFound`), the time budget was
exhausted at the loop head or mid-pass (`timeUp`), or the 5-pass attempt
cap was reached (`capReached`, in which case exactly 5 passes ran); and on
a page with zero matching elements (time budget permitting) the loop ends
after exactly one pass with zero banners dismissed. -/
theorem bannerLoop_termination (env : BannerEnv) :
    (handleBanners env).passes ≤ MAX_BANNER_ATTEMPTS ∧
    ((handleBanners env).reason = .capReached →
      (handleBanners env).passes = MAX_BANNER_ATTEMPTS) ∧
    ((handleBanners env).reason = .noneFound →
      (scanCatalog env (handleBanners env).passes 0 COMMON_BANNER_PATTERNS).outcome =
        .exhausted) ∧
    ((handleBanners env).reason = .timeUp →
      env.timeUpAtLoopHead (handleBanners env).passes = true ∨
      (scanCatalog env (handleBanners env).passes 0 COMMON_BANNER_PATTERNS).outcome =
        .timedOut) ∧
    (env.timeUpAtLoopHead 0 = false →
     (∀ j, env.timeUpAtPattern 1 j = false) →
     (∀ j, env.applies 1 j = false) →
      (handleBanners env).passes = 1 ∧ (handleBanners env).bannersHandled = 0 ∧
      (handleBanners env).reason = .noneFound) := by
  have hle := bannerLoopGo_passes_le env MAX_BANNER_ATTEMPTS 0 0 []
  have hsp := bannerLoopGo_reason_spec env MAX_BANNER_ATTEMPTS 0 0 []
  refine ⟨by simpa using hle, ?_, hsp.2.1, hsp.2.2, ?_⟩
  · intro hr
    have hp := hsp.1 hr
    simpa using hp
  · intro ht0 htime happ
    have hq := bannerLoop_quiet env 4 0 0 [] ht0 (by simpa using htime)
      (by simpa using happ)
    have hh : handleBanners env = bannerLoopGo env (4 + 1) 0 0 [] := rfl
    rw [hh, hq]
    exact ⟨rfl, rfl, rfl⟩

theorem bannerLoop_termination_witness :
    (handleBanners quietBannerEnv).passes ≤ MAX_BANNER_ATTEMPTS ∧
    ((handleBanners quietBannerEnv).passes = 1 ∧
     (handleBanners quietBannerEnv).bannersHandled = 0 ∧
     (handleBanners quietBannerEnv).reason = .noneFound) :=
  ⟨(bannerLoop_termination quietBannerEnv).1,
   (bannerLoop_termination quietBannerEnv).2.2.2.2 rfl (fun _ => rfl) (fun _ => rfl)⟩

lemma mem_waitEvents {p : ℕ} {pat : BannerPattern} {e : BannerEvent}
    (he : e ∈ waitEvents p pat) : ∃ w, e = .waited p w := by
  unfold waitEvents at he
  rcases hw : pat.waitAfter with _ | w
  · rw [hw] at he; simp at he
  · rw [hw] at he
    dsimp only at he
    by_cases h0 : w = 0
    · rw [if_pos h0] at he; simp at he
    · rw [if_neg h0] at he
      simp at he
      exact ⟨w, he⟩

lemma passOf_scanCatalog (env : BannerEnv) (p : ℕ) :
    ∀ j ps e, e ∈ (scanCatalog env p j ps).events → passOf e = p := by
  intro j ps
  induction ps generalizing j with
  | nil => intro e he; simp [scanCatalog] at he
  | cons pat rest ih =>
    intro e he
    rw [scanCatalog] at he
    split at he
    · simp at he
    · split at he
      · simp only [List.cons_append, List.nil_append, List.mem_cons] at he
        rcases he with h1 | h2
        · rw [h1]; rfl
        · rcases h2 with h2 | h3
          · rw [h2]; rfl
          · obtain ⟨w, hw⟩ := mem_waitEvents h3
            rw [hw]; rfl
      · rw [List.mem_cons] at he
        rcases he with h1 | h2
        · rw [h1]; rfl
        · exact ih (j + 1) e h2

lemma scanCatalog_tried_ge (env : BannerEnv) (p : ℕ) :
    ∀ j ps i, BannerEvent.tried p i ∈ (scanCatalog env p j ps).events → j ≤ i := by
  intro j ps
  induction ps generalizing j with
  | nil => intro i hi; simp [scanCatalog] at hi
  | cons pat rest ih =>
    intro i hi
    rw [scanCatalog] at hi
    split at hi
    · simp at hi
    · split at hi
      · simp only [List.cons_append, List.nil_append, List.mem_cons] at hi
        rcases hi with h1 | h2
        · injection h1 with _ h; omega
        · rcases h2 with h2 | h3
          · exact absurd h2 (by simp)
          · obtain ⟨w, hw⟩ := mem_waitEvents h3
            exact absurd hw (by simp)
      · rw [List.mem_cons] at hi
        rcases hi with h1 | h2
        · injection h1 with _ h; omega
        · have := ih (j + 1) i h2
          omega

lemma scanCatalog_applied_ge (env : BannerEnv) (p : ℕ) :
    ∀ j ps i, BannerEvent.applied p i ∈ (scanCatalog env p j ps).events → j ≤ i := by
  intro j ps
  induction ps generalizing j with
  | nil => intro i hi; simp [scanCatalog] at hi
  | cons pat rest ih =>
    intro i hi
    rw [scanCatalog] at hi
    split at hi
    · simp at hi
    · split at hi
      · simp only [List.cons_append, List.nil_append, List.mem_cons] at hi
        rcases hi with h1 | h2
        · exact absurd h1 (by simp)
        · rcases h2 with h2 | h3
          · injection h2 with _ h; omega
          · obtain ⟨w, hw⟩ := mem_waitEvents h3
            exact absurd hw (by simp)
      · rw [List.mem_cons] at hi
        rcases hi with h1 | h2
        · exact absurd h1 (by simp)
        · have := ih (j + 1) i h2
          omega

lemma scanCatalog_applied_count (env : BannerEnv) (p n : ℕ) :
    ∀ j ps, ((scanCatalog env p j ps).events.filter (isAppliedOfPass n)).length ≤ 1 := by
  intro j ps
  induction ps generalizing j with
  | nil => simp [scanCatalog]
  | cons pat rest ih =>
    rw [scanCatalog]
    split
    · simp
    · split
      · simp only [List.cons_append, List.nil_append, List.filter_cons]
        have hw : (waitEvents p pat).filter (isAppliedOfPass n) = [] := by
          rw [List.filter_eq_nil_iff]
          intro e he
          obtain ⟨w, hww⟩ := mem_waitEvents he
          rw [hww]
          simp [isAppliedOfPass]
        have ht : isAppliedOfPass n (BannerEvent.tried p j) = false := by
          simp [isAppliedOfPass]
        rw [ht]
        simp only [List.filter_append, hw, List.append_nil]
        by_cases hpn : (p == n) = true
        · simp [isAppliedOfPass, hpn]
        · simp [isAppliedOfPass, hpn]
      · simp only [List.filter_cons]
        have ht : isAppliedOfPass n (BannerEvent.tried p j) = false := by
          simp [isAppliedOfPass]
        rw [ht]
        exact ih (j + 1)

lemma scanCatalog_applied_tried (env : BannerEnv) (p : ℕ) :
    ∀ j ps i i', BannerEvent.applied p i ∈ (scanCatalog env p j ps).events →
      BannerEvent.tried p i' ∈ (scanCatalog env p j ps).events → i' ≤ i := by
  intro j ps
  induction ps generalizing j with
  | nil => intro i i' hi; simp [scanCatalog] at hi
  | cons pat rest ih =>
    intro i i' hi hi'
    rw [scanCatalog] at hi hi'
    by_cases h1 : env.timeUpAtPattern p j = true
    · rw [if_pos h1] at hi; simp at hi
    · rw [if_neg h1] at hi hi'
      by_cases h2 : env.applies p j = true
      · rw [if_pos h2] at hi hi'
        simp only [List.cons_append, List.nil_append, List.mem_cons] at hi hi'
        have hij : i = j := by
          rcases hi with ha | hb
          · exact absurd ha (by simp)
          · rcases hb with hb | hc
            · exact (BannerEvent.applied.inj hb).2
            · obtain ⟨w, hw⟩ := mem_waitEvents hc
              exact absurd hw (by simp)
        have hij2 : i' = j := by
          rcases hi' with ha | hb
          · exact (BannerEvent.tried.inj ha).2
          · rcases hb with hb | hc
            · exact absurd hb (by simp)
            · obtain ⟨w, hw⟩ := mem_waitEvents hc
              exact absurd hw (by simp)
        omega
      · rw [if_neg h2] at hi hi'
        dsimp only at hi hi'
        rw [List.mem_cons] at hi hi'
        rcases hi with ha | hb
        · exact absurd ha (by simp)
        · rcases hi' with ha2 | hb2
          · have hge := scanCatalog_applied_ge env p (j + 1) rest i hb
            injection ha2 with _ h
            omega
          · exact ih (j + 1) i i' hb hb2

lemma scanCatalog_applied_wait (env : BannerEnv) (p : ℕ) :
    ∀ j ps i, BannerEvent.applied p i ∈ (scanCatalog env p j ps).events →
      ∃ pat, ps.get? (i - j) = some pat ∧
        (∀ w, pat.waitAfter = some w → w ≠ 0 →
          BannerEvent.waited p w ∈ (scanCatalog env p j ps).events) := by
  intro j ps
  induction ps generalizing j with
  | nil => intro i hi; simp [scanCatalog] at hi
  | cons pat rest ih =>
    intro i hi
    rw [scanCatalog] at hi ⊢
    by_cases h1 : env.timeUpAtPattern p j = true
    · rw [if_pos h1] at hi; simp at hi
    · rw [if_neg h1] at hi ⊢
      by_cases h2 : env.applies p j = true
      · rw [if_pos h2] at hi ⊢
        simp only [List.cons_append, List.nil_append, List.mem_cons] at hi
        have hij : i = j := by
          rcases hi with ha | hb
          · exact absurd ha (by simp)
          · rcases hb with hb | hc
            · exact (BannerEvent.applied.inj hb).2
            · obtain ⟨w, hw⟩ := mem_waitEvents hc
              exact absurd hw (by simp)
        refine ⟨pat, ?_, ?_⟩
        · rw [hij, Nat.sub_self]; rfl
        · intro w hw hw0
          have hwev : BannerEvent.waited p w ∈ waitEvents p pat := by
            unfold waitEvents
            rw [hw]
            dsimp only
            rw [if_neg hw0]
            simp
          simp only [List.cons_append, List.nil_append, List.mem_cons]
          right; right
          exact hwev
      · rw [if_neg h2] at hi ⊢
        dsimp only at hi ⊢
        rw [List.mem_cons] at hi
        rcases hi with ha | hb
        · exact absurd ha (by simp)
        · have hge := scanCatalog_applied_ge env p (j + 1) rest i hb
          obtain ⟨pat2, hget, hwait⟩ := ih (j + 1) i hb
          refine ⟨pat2, ?_, ?_⟩
          · have hsub : i - j = (i - (j + 1)) + 1 := by omega
            rw [hsub]
            simpa using hget
          · intro w hw hw0
            rw [List.mem_cons]
            exact Or.inr (hwait w hw hw0)

lemma scanCatalog_tried_zero (env : BannerEnv) (p : ℕ) (ps : List BannerPattern)
    (i : ℕ) (hi : BannerEvent.tried p i ∈ (scanCatalog env p 0 ps).events) :
    BannerEvent.tried p 0 ∈ (scanCatalog env p 0 ps).events := by
  cases ps with
  | nil => simp [scanCatalog] at hi
  | cons pat rest =>
    rw [scanCatalog] at hi ⊢
    by_cases h1 : env.timeUpAtPattern p 0 = true
    · rw [if_pos h1] at hi; simp at hi
    · rw [if_neg h1] at hi ⊢
      by_cases h2 : env.applies p 0 = true
      · rw [if_pos h2]; simp
      · rw [if_neg h2]; simp

lemma bannerLoopGo_events_mono (env : BannerEnv) :
    ∀ fuel a h evs e, e ∈ evs → e ∈ (bannerLoopGo env fuel a h evs).events := by
  intro fuel
  induction fuel with
  | zero =>
    intro a h evs e he
    rw [bannerLoopGo]
    split <;> exact he
  | succ f ih =>
    intro a h evs e he
    rw [bannerLoopGo]
    split
    · exact he
    · dsimp only
      split
      · exact ih (a + 1) (h + 1) _ e (List.mem_append_left _ he)
      · exact List.mem_append_left _ he
      · exact List.mem_append_left _ he

lemma bannerLoopGo_events_cases (env : BannerEnv) :
    ∀ fuel a h evs e, e ∈ (bannerLoopGo env fuel a h evs).events →
      e ∈ evs ∨ ∃ m, a < m ∧
        e ∈ (scanCatalog env m 0 COMMON_BANNER_PATTERNS).events ∧
        ∀ x, x ∈ (scanCatalog env m 0 COMMON_BANNER_PATTERNS).events →
          x ∈ (bannerLoopGo env fuel a h evs).events := by
  intro fuel
  induction fuel with
  | zero =>
    intro a h evs e he
    rw [bannerLoopGo] at he
    split at he <;> exact Or.inl he
  | succ f ih =>
    intro a h evs e he
    rw [bannerLoopGo] at he
    split at he
    · exact Or.inl he
    · rename_i ht
      dsimp only at he
      split at he
      · rename_i ho
        rcases ih (a + 1) (h + 1) _ e he with hin | ⟨m, hm, hmem, hsub⟩
        · rcases List.mem_append.mp hin with h1 | h2
          · exact Or.inl h1
          · refine Or.inr ⟨a + 1, by omega, h2, ?_⟩
            intro x hx
            have hx2 : x ∈ evs ++ (scanCatalog env (a + 1) 0 COMMON_BANNER_PATTERNS).events :=
              List.mem_append_right _ hx
            have := bannerLoopGo_events_mono env f (a + 1) (h + 1) _ x hx2
            rw [bannerLoopGo, if_neg ht]
            dsimp only
            rw [ho]
            exact this
        · refine Or.inr ⟨m, by omega, hmem, ?_⟩
          intro x hx
          have := hsub x hx
          rw [bannerLoopGo, if_neg ht]
          dsimp only
          rw [ho]
          exact this
      · rename_i ho
        dsimp only at he
        rcases List.mem_append.mp he with h1 | h2
        · exact Or.inl h1
        · refine Or.inr ⟨a + 1, by omega, h2, ?_⟩
          intro x hx
          rw [bannerLoopGo, if_neg ht]
          dsimp only
          rw [ho]
          exact List.mem_append_right _ hx
      · rename_i ho
        dsimp only at he
        rcases List.mem_append.mp he with h1 | h2
        · exact Or.inl h1
        · refine Or.inr ⟨a + 1, by omega, h2, ?_⟩
          intro x hx
          rw [bannerLoopGo, if_neg ht]
          dsimp only
          rw [ho]
          exact List.mem_append_right _ hx

lemma scanCatalog_filter_ne (env : BannerEnv) (p n : ℕ) (hpn : p ≠ n) (j : ℕ)
    (ps : List BannerPattern) :
    (scanCatalog env p j ps).events.filter (isAppliedOfPass n) = [] := by
  rw [List.filter_eq_nil_iff]
  intro e he
  have hp := passOf_scanCatalog env p j ps e he
  cases e with
  | tried q i => simp [isAppliedOfPass]
  | applied q i =>
    have : q = p := hp
    rw [this]
    simp [isAppliedOfPass]
    exact hpn
  | waited q w => simp [isAppliedOfPass]

lemma bannerLoopGo_filter_ge (env : BannerEnv) (n : ℕ) :
    ∀ fuel a h evs, n ≤ a →
      (bannerLoopGo env fuel a h evs).events.filter (isAppliedOfPass n) =
        evs.filter (isAppliedOfPass n) := by
  intro fuel
  induction fuel with
  | zero =>
    intro a h evs hna
    rw [bannerLoopGo]
    split <;> rfl
  | succ f ih =>
    intro a h evs hna
    rw [bannerLoopGo]
    split
    · rfl
    · dsimp only
      split
      · rw [ih (a + 1) (h + 1) _ (by omega)]
        rw [List.filter_append]
        rw [scanCatalog_filter_ne env (a + 1) n (by omega) 0 COMMON_BANNER_PATTERNS]
        rw [List.append_nil]
      · dsimp only
        rw [List.filter_append]
        rw [scanCatalog_filter_ne env (a + 1) n (by omega) 0 COMMON_BANNER_PATTERNS]
        rw [List.append_nil]
      · dsimp only
        rw [List.filter_append]
        rw [scanCatalog_filter_ne env (a + 1) n (by omega) 0 COMMON_BANNER_PATTERNS]
        rw [List.append_nil]

lemma bannerLoopGo_filter_lt (env : BannerEnv) (n : ℕ) :
    ∀ fuel a h evs, a < n →
      ((bannerLoopGo env fuel a h evs).events.filter (isAppliedOfPass n)).length ≤
        (evs.filter (isAppliedOfPass n)).length +
        ((scanCatalog env n 0 COMMON_BANNER_PATTERNS).events.filter
          (isAppliedOfPass n)).length := by
  intro fuel
  induction fuel with
  | zero =>
    intro a h evs han
    rw [bannerLoopGo]
    split <;> (dsimp only; omega)
  | succ f ih =>
    intro a h evs han
    rw [bannerLoopGo]
    split
    · dsimp only; omega
    · dsimp only
      split
      · by_cases hcase : a + 1 < n
        · have := ih (a + 1) (h + 1) (evs ++ (scanCatalog env (a + 1) 0 COMMON_BANNER_PATTERNS).events) hcase
          rw [List.filter_append, scanCatalog_filter_ne env (a + 1) n (by omega) 0
            COMMON_BANNER_PATTERNS, List.append_nil] at this
          exact this
        · have hn : n ≤ a + 1 := by omega
          have heq := bannerLoopGo_filter_ge env n f (a + 1) (h + 1)
            (evs ++ (scanCatalog env (a + 1) 0 COMMON_BANNER_PATTERNS).events) hn
          rw [heq, List.filter_append, List.length_append]
          have hn2 : a + 1 = n := by omega
          rw [hn2]
      · dsimp only
        rw [List.filter_append, List.length_append]
        by_cases hcase : a + 1 = n
        · rw [hcase]
        · rw [scanCatalog_filter_ne env (a + 1) n (by omega) 0 COMMON_BANNER_PATTERNS]
          simp
      · dsimp only
        rw [List.filter_append, List.length_append]
        by_cases hcase : a + 1 = n
        · rw [hcase]
        · rw [scanCatalog_filter_ne env (a + 1) n (by omega) 0 COMMON_BANNER_PATTERNS]
          simp

lemma catalog_waitAfter_ne_zero :
    ∀ pat ∈ COMMON_BANNER_PATTERNS, pat.waitAfter ≠ some 0 := by
  decide

/-- C8: in every pass of the banner loop, at most one pattern application
occurs; once a pattern is applied, no later pattern of the catalog is
tried in that pass; the applied pattern's `waitAfter` delay is observed;
and every pass that tries any pattern starts from the top of the catalog
(pattern index 0). -/
theorem bannerLoop_onePatternPerPass (env : BannerEnv) (n : ℕ) :
    (((handleBanners env).events.filter (isAppliedOfPass n)).length ≤ 1) ∧
    (∀ i j, BannerEvent.applied n i ∈ (handleBanners env).events →
      BannerEvent.tried n j ∈ (handleBanners env).events → j ≤ i) ∧
    (∀ i pat w, BannerEvent.applied n i ∈ (handleBanners env).events →
      COMMON_BANNER_PATTERNS.get? i = some pat → pat.waitAfter = some w →
      BannerEvent.waited n w ∈ (handleBanners env).events) ∧
    (∀ i, BannerEvent.tried n i ∈ (handleBanners env).events →
      BannerEvent.tried n 0 ∈ (handleBanners env).events) := by
  have hblock : ∀ e, e ∈ (handleBanners env).events →
      ∃ m, 0 < m ∧ e ∈ (scanCatalog env m 0 COMMON_BANNER_PATTERNS).events ∧
        ∀ x, x ∈ (scanCatalog env m 0 COMMON_BANNER_PATTERNS).events →
          x ∈ (handleBanners env).events := by
    intro e he
    rcases bannerLoopGo_events_cases env MAX_BANNER_ATTEMPTS 0 0 [] e he with h0 | hb
    · simp at h0
    · exact hb
  refine ⟨?_, ?_, ?_, ?_⟩
  · rcases Nat.eq_zero_or_pos n with hn | hn
    · subst hn
      have := bannerLoopGo_filter_ge env 0 MAX_BANNER_ATTEMPTS 0 0 [] (le_refl 0)
      rw [handleBanners, this]
      simp
    · have := bannerLoopGo_filter_lt env n MAX_BANNER_ATTEMPTS 0 0 [] hn
      rw [handleBanners]
      refine le_trans this ?_
      simp only [List.filter_nil, List.length_nil, Nat.zero_add]
      exact scanCatalog_applied_count env n n 0 COMMON_BANNER_PATTERNS
  · intro i j hi hj
    obtain ⟨m, -, hmem, -⟩ := hblock _ hi
    obtain ⟨m2, -, hmem2, -⟩ := hblock _ hj
    have hm : m = n := by
      have := passOf_scanCatalog env m 0 COMMON_BANNER_PATTERNS _ hmem
      simpa [passOf] using this.symm
    have hm2 : m2 = n := by
      have := passOf_scanCatalog env m2 0 COMMON_BANNER_PATTERNS _ hmem2
      simpa [passOf] using this.symm
    rw [hm] at hmem
    rw [hm2] at hmem2
    exact scanCatalog_applied_tried env n 0 COMMON_BANNER_PATTERNS i j hmem hmem2
  · intro i pat w hi hget hw
    obtain ⟨m, -, hmem, hsub⟩ := hblock _ hi
    have hm : m = n := by
      have := passOf_scanCatalog env m 0 COMMON_BANNER_PATTERNS _ hmem
      simpa [passOf] using this.symm
    rw [hm] at hmem hsub
    obtain ⟨pat2, hget2, hwait⟩ :=
      scanCatalog_applied_wait env n 0 COMMON_BANNER_PATTERNS i hmem
    rw [Nat.sub_zero] at hget2
    have hpp : pat2 = pat := by
      rw [hget] at hget2
      exact (Option.some.inj hget2).symm
    rw [hpp] at hwait
    have hpatmem : pat ∈ COMMON_BANNER_PATTERNS := List.get?_mem hget
    have hw0 : w ≠ 0 := by
      intro h0
      rw [h0] at hw
      exact catalog_waitAfter_ne_zero pat hpatmem hw
    exact hsub _ (hwait w hw hw0)
  · intro i hi
    obtain ⟨m, -, hmem, hsub⟩ := hblock _ hi
    have hm : m = n := by
      have := passOf_scanCatalog env m 0 COMMON_BANNER_PATTERNS _ hmem
      simpa [passOf] using this.symm
    rw [hm] at hmem hsub
    exact hsub _ (scanCatalog_tried_zero env n COMMON_BANNER_PATTERNS i hmem)

theorem bannerLoop_onePatternPerPass_witness :
    (((handleBanners oneBannerEnv).events.filter (isAppliedOfPass 1)).length ≤ 1) ∧
    BannerEvent.waited 1 3000 ∈ (handleBanners oneBannerEnv).events :=
  ⟨(bannerLoop_onePatternPerPass oneBannerEnv 1).1,
   (bannerLoop_onePatternPerPass oneBannerEnv 1).2.2.1 0 _ 3000 (by decide) rfl rfl⟩

end BBS
